import Mathlib

/-!
# Verification of the `tfmanager` volume canonicalization engine

Shallow embedding of `tfmanager/utils.py` (`copy_template` and its helpers)
and proofs about the claims of the specification.

Modelling conventions:
* Array values and affine entries are idealized as exact rationals (`ℚ`);
  the float dtypes `float32`/`float64` therefore cast as the identity, while
  the integer dtypes cast by C-style truncation toward zero followed by
  twos-complement wrapping (the numpy behaviour for in-range values).
* `np.allclose` comparisons are idealized to exact equality.
* The obliquity metric `nb.affines.obliquity` involves `sqrt` and `arccos`,
  so it is modelled over `ℝ`.  The engine receives the Boolean verdict of
  that test (`obl`) as an input — theorems that depend on it carry the
  hypothesis that the verdict agrees with the real-valued metric.
* The deoblique branch (utils.py lines 71–78) never completes: line 77
  multiplies the 3×3 `np.linalg.inv(cardrot)` with the 4×4 `affine`, which
  numpy rejects with `ValueError` (shapes not aligned).  The embedding
  models the branch as returning that exception (`deobliqueStage`), and the
  per-volume engine as `Except`-valued; an uncaught exception aborts the
  tree pass exactly like a decode failure.
* The external codec (nibabel) is modelled through the `Volume` structure:
  loading yields the canonically reoriented data array, the affine, the
  header zooms and the coded s/q-forms.  Writing produces the `Volume`
  recorded in `Outcome.out`.  The zooms of a written volume are the column
  norms of its affine, which equal the header zooms for well-formed
  canonical inputs (the affine reaching a write is always the input affine,
  since the deoblique branch never completes), so the written volume keeps
  `v.zooms`.
-/

set_option maxRecDepth 8000

namespace TF

/-- Storage dtypes that the engine distinguishes
(`"uint8"`, `"int16"`, `"float32"` and the default float dtype of volumes). -/
inductive DType
  | uint8 | int16 | float32 | float64
deriving DecidableEq

/-- Modality tag derived from the trailing `_`-segment of the filename stem
(`stem.split("_")[-1]` in the source); unrecognized tags carry their text. -/
inductive Modality
  | T1w | T2w | PD | mask | dseg | probseg | other (tag : List Char)
deriving DecidableEq

/-- Truncation toward zero, as C/numpy float-to-int casts do. -/
def truncQ (q : ℚ) : ℤ := if 0 ≤ q then ⌊q⌋ else -⌊-q⌋

/-- Element cast `x.astype(dtype)`: identity for float dtypes (values are
idealized rationals), truncate-and-wrap for the integer dtypes. -/
def castVal : DType → ℚ → ℚ
  | .uint8, q => ((truncQ q) % 256 : ℤ)
  | .int16, q => (((truncQ q + 32768) % 65536) - 32768 : ℤ)
  | .float32, q => q
  | .float64, q => q

/-- Array cast `data.astype(dtype)` on the flattened array. -/
def castList (d : DType) (l : List ℚ) : List ℚ := l.map (castVal d)

/-- Rounding `np.round`: round half to even. -/
def roundHE (q : ℚ) : ℤ :=
  if q - ⌊q⌋ < 1/2 then ⌊q⌋
  else if (1 : ℚ)/2 < q - ⌊q⌋ then ⌊q⌋ + 1
  else if ⌊q⌋ % 2 = 0 then ⌊q⌋ else ⌊q⌋ + 1

/-- Insertion step for `sortQ`. -/
def insortQ (x : ℚ) : List ℚ → List ℚ
  | [] => [x]
  | y :: ys => if x ≤ y then x :: y :: ys else y :: insortQ x ys

/-- Ascending insertion sort (the sort underlying `np.percentile`). -/
def sortQ : List ℚ → List ℚ
  | [] => []
  | x :: xs => insortQ x (sortQ xs)

/-- Percentile `np.percentile(l, q)` with the default linear interpolation:
position `q/100·(n−1)` between the sorted order statistics. -/
def percentile (l : List ℚ) (q : ℚ) : ℚ :=
  let s := sortQ l
  let pos : ℚ := q / 100 * ((s.length : ℚ) - 1)
  let i : ℕ := (⌊pos⌋).toNat
  let lo := s.getD i 0
  lo + (pos - (⌊pos⌋ : ℚ)) * (s.getD (i + 1) lo - lo)

/-- Minimum `data.min()` (0 on the empty array, which numpy rejects). -/
def listMin : List ℚ → ℚ
  | [] => 0
  | [x] => x
  | x :: y :: xs => min x (listMin (y :: xs))

/-- Maximum `data.max()` (0 on the empty array, which numpy rejects). -/
def listMax : List ℚ → ℚ
  | [] => 0
  | [x] => x
  | x :: y :: xs => max x (listMax (y :: xs))

/-- Range test `np.all(0 <= data) and np.all(data < 256)` for `dseg`. -/
def dsegRange (l : List ℚ) : Bool :=
  (l.all fun x => decide (0 ≤ x)) && (l.all fun x => decide (x < 256))

/-- Affine transform: 3×3 linear block and translation column.  The bottom
row of the 4×4 matrix is fixed at `[0,0,0,1]` and left implicit. -/
structure Aff where
  lin : Fin 3 → Fin 3 → ℚ
  tr : Fin 3 → ℚ

instance : DecidableEq Aff := fun a b =>
  decidable_of_iff (a.lin = b.lin ∧ a.tr = b.tr) (by cases a; cases b; simp)

/-- Diagonal matrix `np.diag(z)` for a 3-vector. -/
def diagM (z : Fin 3 → ℚ) : Fin 3 → Fin 3 → ℚ := fun i j => if i = j then z i else 0

/-- The exception numpy raises at utils.py line 77: `np.linalg.inv(cardrot)`
is a 3×3 matrix while `affine` is the full 4×4 affine, so the product
`np.linalg.inv(cardrot).dot(affine)` is a shape mismatch. -/
def deobliqueError : String := "ValueError: shapes (3,3) and (4,4) not aligned"

/-- In-memory volume as the codec hands it to the engine (and as the engine
hands it back for writing): scaled data array, affine, header zooms, coded
s/q-forms and the header fields the engine touches. -/
structure Volume where
  data : List ℚ
  dataDtype : DType
  affine : Aff
  zooms : Fin 3 → ℚ
  sform : Option Aff
  scode : ℕ
  qform : Option Aff
  qcode : ℕ
  slope : ℚ
  inter : ℚ
  xyzUnits : List Char

/-- The caller-supplied flags of `copy_template`
(defaults: `normalize=False`, `deoblique=True`, `force_dtype=True`). -/
structure Flags where
  normalize : Bool
  deoblique : Bool
  force_dtype : Bool

/-- Dtype policy of utils.py lines 48–54: start from `int16`; `mask` →
`uint8`; `dseg` in range → `uint8`; otherwise keep the current dtype when
`force_dtype` is off. -/
def policyDtype (force_dtype : Bool) (m : Modality) (data : List ℚ) (cur : DType) : DType :=
  if m = .mask then .uint8
  else if m = .dseg ∧ dsegRange data = true then .uint8
  else if force_dtype = false then cur
  else .int16

/-- Lines 58–63: `probseg` value pipeline — shift the minimum to 0, then
scale by the reciprocal of the shifted maximum. -/
def probsegScaled (l : List ℚ) : List ℚ :=
  let d := l.map fun x => x - listMin l
  d.map fun x => x * (1 / listMax d)

/-- Line 66: `np.round(1e4 * data / np.percentile(data, 99.9)).astype(dtype)`. -/
def normData (dt : DType) (l : List ℚ) : List ℚ :=
  castList dt (l.map fun x => ((roundHE (10000 * x / percentile l (999/10)) : ℤ) : ℚ))

/-- Final target dtype after the value stage: `float32` for `probseg`
(line 60), else the choice of the dtype policy. -/
def valueDtype (fl : Flags) (m : Modality) (v : Volume) : DType :=
  if m = .probseg then .float32
  else policyDtype fl.force_dtype m v.data v.dataDtype

/-- The `modified` flag after the value stage (lines 56–59): dtype change,
forced to `True` for `probseg`. -/
def valueModified (fl : Flags) (m : Modality) (v : Volume) : Bool :=
  if m = .probseg then true
  else decide (policyDtype fl.force_dtype m v.data v.dataDtype ≠ v.dataDtype)

/-- Data array after the value stage (lines 58–66): rescaled for `probseg`;
percentile-normalized for `T1w`/`T2w`/`PD` when `modified` and `normalize`
hold; otherwise untouched. -/
def valueData (fl : Flags) (m : Modality) (v : Volume) : List ℚ :=
  if m = .probseg then probsegScaled v.data
  else if policyDtype fl.force_dtype m v.data v.dataDtype ≠ v.dataDtype
          ∧ fl.normalize = true ∧ (m = .T1w ∨ m = .T2w ∨ m = .PD) then
    normData (policyDtype fl.force_dtype m v.data v.dataDtype) v.data
  else v.data

/-- The deoblique branch (lines 71–78).  When the `deoblique` flag is set
and the analyzer verdict `obl` is positive the branch is entered: line 72
sets `modified = True` and lines 73–74 compute `card` and `cardrot`, but
line 77 multiplies the 3×3 `np.linalg.inv(cardrot)` with the 4×4 `affine` —
a numpy shape mismatch — so the branch always raises `ValueError` and never
completes.  Otherwise the `modified` flag and the affine pass through
unchanged. -/
def deobliqueStage (fl : Flags) (obl : Bool) (modified : Bool) (A : Aff) :
    Except String (Bool × Aff) :=
  if fl.deoblique = true ∧ obl = true then .error deobliqueError
  else .ok (modified, A)

/-- The rewrite decision of lines 83–90: modified, or a coded form is not 4,
or a stored form is absent/different from the affine at that point. -/
def writeNeeded (modified : Bool) (A : Aff) (v : Volume) : Bool :=
  modified
  || decide (¬ (v.scode = 4 ∧ v.qcode = 4))
  || decide (v.sform ≠ some A)
  || decide (v.qform ≠ some A)

/-- The volume written by lines 91–96: data cast to the target dtype, both
coded forms set to `(affine, 4)`, slope/inter forced to `(1, 0)` and spatial
units to millimeters.  The zooms stay `v.zooms` (see the header comment:
the written zooms are the affine column norms, which equal the input zooms
for canonical inputs — the affine `A` reaching a write is always the input
affine, the deoblique branch never completing). -/
def writtenVolume (fl : Flags) (m : Modality) (A : Aff) (v : Volume) : Volume :=
  { data := castList (valueDtype fl m v) (valueData fl m v)
    dataDtype := valueDtype fl m v
    affine := A
    zooms := v.zooms
    sform := some A
    scode := 4
    qform := some A
    qcode := 4
    slope := 1
    inter := 0
    xyzUnits := "mm".data }

/-- Per-volume outcome of the engine, when it completes. -/
structure Outcome where
  modified : Bool
  dtype : DType
  data : List ℚ
  affine : Aff
  write : Bool
  out : Volume

/-- The per-volume core of `copy_template` (utils.py lines 43–98) for one
NIfTI file: `m` is the modality derived from the file name and `obl` the
Boolean verdict `np.any(obliquity(affine) > 1e-2)` of the affine analyzer.
The result is `Except`-valued: a volume that enters the deoblique branch
aborts with the line-77 `ValueError` and is never written. -/
def processVolume (fl : Flags) (obl : Bool) (m : Modality) (v : Volume) :
    Except String Outcome :=
  match deobliqueStage fl obl (valueModified fl m v) v.affine with
  | .error e => .error e
  | .ok st =>
    .ok { modified := st.1
          dtype := valueDtype fl m v
          data := valueData fl m v
          affine := st.2
          write := writeNeeded st.1 st.2 v
          out := writtenVolume fl m st.2 v }

instance {ε α : Type _} [DecidableEq ε] [DecidableEq α] : DecidableEq (Except ε α) :=
  fun a b =>
    match a, b with
    | .ok x, .ok y => decidable_of_iff (x = y) (by simp)
    | .error e, .error f => decidable_of_iff (e = f) (by simp)
    | .ok _, .error _ => isFalse (fun h => Except.noConfusion h)
    | .error _, .ok _ => isFalse (fun h => Except.noConfusion h)

/-- Entering the deoblique branch aborts with the line-77 exception. -/
lemma processVolume_crash (fl : Flags) (obl : Bool) (m : Modality) (v : Volume)
    (hc : fl.deoblique = true ∧ obl = true) :
    processVolume fl obl m v = .error deobliqueError := by
  rw [processVolume, deobliqueStage, if_pos hc]

/-- When the deoblique branch is not entered, processing completes with the
value-stage results and the untouched input affine. -/
lemma processVolume_ok (fl : Flags) (obl : Bool) (m : Modality) (v : Volume)
    (hnc : ¬ (fl.deoblique = true ∧ obl = true)) :
    processVolume fl obl m v
      = .ok { modified := valueModified fl m v
              dtype := valueDtype fl m v
              data := valueData fl m v
              affine := v.affine
              write := writeNeeded (valueModified fl m v) v.affine v
              out := writtenVolume fl m v.affine v } := by
  rw [processVolume, deobliqueStage, if_neg hnc]

/-! ## Filename handling (lines 34, 40–41), on `List Char`. -/

/-- Split a character list on a separator (the groups between separators). -/
def splitCh (sep : Char) (l : List Char) : List (List Char) :=
  l.foldr (fun c acc =>
    if c = sep then [] :: acc
    else match acc with
      | [] => [[c]]
      | g :: gs => (c :: g) :: gs) [[]]

/-- Base name `Path(s).name`: the last `/`-separated component. -/
def nameChars (s : String) : List Char := (splitCh '/' s.data).getLastD []

/-- Extension test `filename.name.endswith((".nii", ".nii.gz"))`. -/
def isNiiName (s : String) : Bool :=
  ".nii".data.isSuffixOf (nameChars s) || ".nii.gz".data.isSuffixOf (nameChars s)

/-- Stem `filename.name[: -len("".join(filename.suffixes))]`: for the dot-free
names the walker passes through, the part of the name before the first dot. -/
def stemChars (s : String) : List Char := (splitCh '.' (nameChars s)).headD []

/-- The modality classifier: match the tag against the known names. -/
def classifyTag (t : List Char) : Modality :=
  if t = "T1w".data then .T1w
  else if t = "T2w".data then .T2w
  else if t = "PD".data then .PD
  else if t = "mask".data then .mask
  else if t = "dseg".data then .dseg
  else if t = "probseg".data then .probseg
  else .other t

/-- Trailing tag `stem.split("_")[-1]` fed to the classifier. -/
def modalityOf (s : String) : Modality :=
  classifyTag ((splitCh '_' (stemChars s)).getLastD [])

/-! ## The tree pass (lines 28–105). -/

/-- One enumerated file of the tree walk: its source path, whether source
and destination coincide, the codec load result (`as_closest_canonical`
applied) and the affine analyzer verdict on the loaded affine. -/
structure FileRec where
  fname : String
  sameFile : Bool
  load : Except String Volume
  obl : Bool

/-- Observable result of one tree pass: destination writes performed,
verbatim copies performed, and either the returned report or the exception
that aborted the loop. -/
structure PassResult where
  writes : List (String × Volume)
  copies : List String
  outcome : Except String (List String)

/-- The `copy_template` loop over the enumerated files.  Non-NIfTI names are
copied verbatim (unless source and destination are the same file).  A NIfTI
file is loaded and processed — a decode exception, or the line-77
`ValueError` from the deoblique branch, propagates: the loop aborts and the
report is discarded, while earlier side effects persist.  `retval` collects
the source path of each rewritten file, and unchanged files are copied only
when the destination differs. -/
def copyTemplate (fl : Flags) : List FileRec → PassResult
  | [] => ⟨[], [], .ok []⟩
  | f :: fs =>
    if isNiiName f.fname = false then
      let r := copyTemplate fl fs
      { writes := r.writes
        copies := (if f.sameFile then [] else [f.fname]) ++ r.copies
        outcome := r.outcome }
    else
      match f.load with
      | .error e => ⟨[], [], .error e⟩
      | .ok v =>
        match processVolume fl f.obl (modalityOf f.fname) v with
        | .error e => ⟨[], [], .error e⟩
        | .ok o =>
          let r := copyTemplate fl fs
          if o.write = true then
            { writes := (f.fname, o.out) :: r.writes
              copies := r.copies
              outcome := r.outcome.map (fun rep => f.fname :: rep) }
          else
            { writes := r.writes
              copies := (if f.sameFile then [] else [f.fname]) ++ r.copies
              outcome := r.outcome }

/-! ## The obliquity metric (`nb.affines.obliquity`), over `ℝ`. -/

/-- Voxel sizes `voxel_sizes(affine)`: Euclidean norm of column `j` of the linear block. -/
noncomputable def colNormR (L : Fin 3 → Fin 3 → ℚ) (j : Fin 3) : ℝ :=
  Real.sqrt (((L 0 j : ℝ)) ^ 2 + ((L 1 j : ℝ)) ^ 2 + ((L 2 j : ℝ)) ^ 2)

/-- Best cosines `np.abs(affine[:-1,:-1] / vs).max(axis=1)`: per row, the largest
column-normalized magnitude. -/
noncomputable def bestCosR (L : Fin 3 → Fin 3 → ℚ) (i : Fin 3) : ℝ :=
  max (max (|(L i 0 : ℝ)| / colNormR L 0) (|(L i 1 : ℝ)| / colNormR L 1))
    (|(L i 2 : ℝ)| / colNormR L 2)

/-- Metric `obliquity(affine)[i] = arccos(best_cosines[i])`. -/
noncomputable def obliquityR (L : Fin 3 → Fin 3 → ℚ) (i : Fin 3) : ℝ :=
  Real.arccos (bestCosR L i)

/-- Verdict `np.any(nb.affines.obliquity(affine) > 1e-2)` of the analyzer,
which `processVolume` receives as `obl`. -/
def oblExceeds (L : Fin 3 → Fin 3 → ℚ) : Prop :=
  ∃ i : Fin 3, obliquityR L i > 1/100

/-! ## Obliquity facts -/

lemma colNormR_diag (z : Fin 3 → ℚ) (j : Fin 3) (hz : 0 < z j) :
    colNormR (diagM z) j = (z j : ℝ) := by
  have hzr : (0 : ℝ) ≤ (z j : ℝ) := by exact_mod_cast hz.le
  have key : ((diagM z 0 j : ℚ) : ℝ) ^ 2 + ((diagM z 1 j : ℚ) : ℝ) ^ 2
      + ((diagM z 2 j : ℚ) : ℝ) ^ 2 = ((z j : ℚ) : ℝ) ^ 2 := by
    fin_cases j <;> simp [diagM, Fin.ext_iff]
  rw [colNormR, key, Real.sqrt_sq hzr]

lemma bestCosR_diag (z : Fin 3 → ℚ) (hz : ∀ i, 0 < z i) (i : Fin 3) :
    bestCosR (diagM z) i = 1 := by
  have hzr : ∀ j : Fin 3, (0 : ℝ) < (z j : ℝ) := fun j => by exact_mod_cast hz j
  have habs : ∀ j : Fin 3, |(z j : ℝ)| / (z j : ℝ) = 1 := fun j => by
    rw [abs_of_pos (hzr j), div_self (hzr j).ne']
  rw [bestCosR, colNormR_diag z 0 (hz 0), colNormR_diag z 1 (hz 1),
    colNormR_diag z 2 (hz 2)]
  fin_cases i <;> simp [diagM, Fin.ext_iff, habs]

lemma obliquityR_diag (z : Fin 3 → ℚ) (hz : ∀ i, 0 < z i) (i : Fin 3) :
    obliquityR (diagM z) i = 0 := by
  rw [obliquityR, bestCosR_diag z hz i, Real.arccos_one]

lemma not_oblExceeds_diag (z : Fin 3 → ℚ) (hz : ∀ i, 0 < z i) :
    ¬ oblExceeds (diagM z) := by
  rintro ⟨i, hi⟩
  rw [obliquityR_diag z hz i] at hi
  norm_num at hi

lemma cos_hundredth_gt : (4 : ℝ) / 5 < Real.cos (1/100) := by
  have h := Real.one_sub_sq_div_two_le_cos (x := 1/100)
  nlinarith [h]

/-- A concretely oblique linear block: the 3–4–5 rotation scaled by 5. -/
def L345 : Fin 3 → Fin 3 → ℚ := fun i j =>
  if i = 0 then (if j = 0 then 3 else if j = 1 then -4 else 0)
  else if i = 1 then (if j = 0 then 4 else if j = 1 then 3 else 0)
  else (if j = 0 then 0 else if j = 1 then 0 else 5)

lemma colNormR_L345 (j : Fin 3) : colNormR L345 j = 5 := by
  have h25 : Real.sqrt 25 = 5 := by
    rw [show (25 : ℝ) = 5 ^ 2 by norm_num, Real.sqrt_sq (by norm_num : (0:ℝ) ≤ 5)]
  fin_cases j <;> rw [colNormR] <;> norm_num [L345, Fin.ext_iff, h25]

lemma bestCosR_L345_zero : bestCosR L345 0 = 4/5 := by
  rw [bestCosR, colNormR_L345 0, colNormR_L345 1, colNormR_L345 2]
  norm_num [L345, Fin.ext_iff]

lemma oblExceeds_L345 : oblExceeds L345 := by
  refine ⟨0, ?_⟩
  rw [obliquityR, bestCosR_L345_zero]
  by_contra h
  push_neg at h
  have h1 : Real.cos (1/100) ≤ Real.cos (Real.arccos (4/5)) :=
    Real.cos_le_cos_of_nonneg_of_le_pi (Real.arccos_nonneg _)
      (by linarith [Real.pi_gt_three]) h
  rw [Real.cos_arccos (by norm_num) (by norm_num)] at h1
  linarith [cos_hundredth_gt]

/-! ## List min/max lemmas -/

lemma listMin_map_sub (c : ℚ) : ∀ (l : List ℚ), l ≠ [] →
    listMin (l.map fun x => x - c) = listMin l - c
  | [], h => absurd rfl h
  | [x], _ => rfl
  | x :: y :: xs, _ => by
    show min (x - c) (listMin ((y :: xs).map fun x => x - c))
      = min x (listMin (y :: xs)) - c
    rw [listMin_map_sub c (y :: xs) (by simp), min_sub_sub_right]

lemma listMax_map_sub (c : ℚ) : ∀ (l : List ℚ), l ≠ [] →
    listMax (l.map fun x => x - c) = listMax l - c
  | [], h => absurd rfl h
  | [x], _ => rfl
  | x :: y :: xs, _ => by
    show max (x - c) (listMax ((y :: xs).map fun x => x - c))
      = max x (listMax (y :: xs)) - c
    rw [listMax_map_sub c (y :: xs) (by simp), max_sub_sub_right]

lemma listMin_map_mul (k : ℚ) (hk : 0 ≤ k) : ∀ (l : List ℚ), l ≠ [] →
    listMin (l.map fun x => x * k) = listMin l * k
  | [], h => absurd rfl h
  | [x], _ => rfl
  | x :: y :: xs, _ => by
    show min (x * k) (listMin ((y :: xs).map fun x => x * k))
      = min x (listMin (y :: xs)) * k
    rw [listMin_map_mul k hk (y :: xs) (by simp), min_mul_of_nonneg _ _ hk]

lemma listMax_map_mul (k : ℚ) (hk : 0 ≤ k) : ∀ (l : List ℚ), l ≠ [] →
    listMax (l.map fun x => x * k) = listMax l * k
  | [], h => absurd rfl h
  | [x], _ => rfl
  | x :: y :: xs, _ => by
    show max (x * k) (listMax ((y :: xs).map fun x => x * k))
      = max x (listMax (y :: xs)) * k
    rw [listMax_map_mul k hk (y :: xs) (by simp), max_mul_of_nonneg _ _ hk]

lemma listMin_const (c : ℚ) : ∀ (l : List ℚ), l ≠ [] → (∀ x ∈ l, x = c) →
    listMin l = c
  | [], h, _ => absurd rfl h
  | [x], _, hall => hall x (by simp)
  | x :: y :: xs, _, hall => by
    show min x (listMin (y :: xs)) = c
    rw [hall x (by simp), listMin_const c (y :: xs) (by simp)
      (fun z hz => hall z (List.mem_cons_of_mem x hz)), min_self]

lemma listMax_const (c : ℚ) : ∀ (l : List ℚ), l ≠ [] → (∀ x ∈ l, x = c) →
    listMax l = c
  | [], h, _ => absurd rfl h
  | [x], _, hall => hall x (by simp)
  | x :: y :: xs, _, hall => by
    show max x (listMax (y :: xs)) = c
    rw [hall x (by simp), listMax_const c (y :: xs) (by simp)
      (fun z hz => hall z (List.mem_cons_of_mem x hz)), max_self]

/-- Values cast to `uint8` always satisfy the `dseg` range test. -/
lemma castVal_uint8_nonneg (q : ℚ) : 0 ≤ castVal .uint8 q := by
  rw [castVal]
  exact_mod_cast Int.emod_nonneg (truncQ q) (by norm_num)

lemma castVal_uint8_lt (q : ℚ) : castVal .uint8 q < 256 := by
  rw [castVal]
  exact_mod_cast Int.emod_lt_of_pos (truncQ q) (by norm_num : (0:ℤ) < 256)

lemma dsegRange_castList_uint8 (l : List ℚ) :
    dsegRange (castList .uint8 l) = true := by
  rw [dsegRange, Bool.and_eq_true, List.all_eq_true, List.all_eq_true]
  constructor
  · rintro x hx
    rcases List.mem_map.mp hx with ⟨y, _, rfl⟩
    exact decide_eq_true (castVal_uint8_nonneg y)
  · rintro x hx
    rcases List.mem_map.mp hx with ⟨y, _, rfl⟩
    exact decide_eq_true (castVal_uint8_lt y)

/-- Casting to a float dtype is the identity on the idealized values. -/
lemma castList_float32 (l : List ℚ) : castList .float32 l = l := by
  induction l with
  | nil => rfl
  | cons x xs ih => simp [castList, castVal] at ih ⊢; exact ih

/-! ## Concrete volumes used as witnesses and counterexamples -/

/-- The identity affine. -/
def affId : Aff := ⟨diagM (fun _ => 1), fun _ => 0⟩

/-- A canonical, already-compliant `uint8` volume except for `sform_code = 0`. -/
def vMask : Volume :=
  { data := [0, 1, 1], dataDtype := .uint8, affine := affId, zooms := fun _ => 1
    sform := some affId, scode := 0, qform := some affId, qcode := 4
    slope := 1, inter := 0, xyzUnits := "mm".data }

/-- A canonical float32 volume with data spanning `[0, 4]`. -/
def vProb : Volume :=
  { data := [0, 2, 4], dataDtype := .float32, affine := affId, zooms := fun _ => 1
    sform := some affId, scode := 4, qform := some affId, qcode := 4
    slope := 1, inter := 0, xyzUnits := "mm".data }

/-- A canonical float32 volume with constant data. -/
def vProbC : Volume :=
  { data := [5, 5, 5], dataDtype := .float32, affine := affId, zooms := fun _ => 1
    sform := some affId, scode := 4, qform := some affId, qcode := 4
    slope := 1, inter := 0, xyzUnits := "mm".data }

/-- A canonical `int16` volume with label values inside `[0, 256)`. -/
def vDseg : Volume :=
  { data := [0, 5], dataDtype := .int16, affine := affId, zooms := fun _ => 1
    sform := some affId, scode := 4, qform := some affId, qcode := 4
    slope := 1, inter := 0, xyzUnits := "mm".data }

/-- A canonical `int16` volume (target dtype already reached). -/
def vT1 : Volume :=
  { data := [0, 1, 2, 3], dataDtype := .int16, affine := affId, zooms := fun _ => 1
    sform := some affId, scode := 4, qform := some affId, qcode := 4
    slope := 1, inter := 0, xyzUnits := "mm".data }

/-- A `float64` volume, coerced to `int16` when `force_dtype` is on. -/
def vT1f : Volume :=
  { data := [0, 1, 2, 3], dataDtype := .float64, affine := affId, zooms := fun _ => 1
    sform := some affId, scode := 4, qform := some affId, qcode := 4
    slope := 1, inter := 0, xyzUnits := "mm".data }

/-- A volume with an oblique affine (the scaled 3–4–5 rotation). -/
def vObl : Volume :=
  { data := [0, 1], dataDtype := .int16, affine := ⟨L345, fun _ => 0⟩, zooms := fun _ => 5
    sform := some ⟨L345, fun _ => 0⟩, scode := 4, qform := some ⟨L345, fun _ => 0⟩, qcode := 4
    slope := 1, inter := 0, xyzUnits := "mm".data }

/-- A `probseg` volume with the oblique L345 affine. -/
def vOblP : Volume :=
  { data := [0, 2, 4], dataDtype := .float32, affine := ⟨L345, fun _ => 0⟩, zooms := fun _ => 5
    sform := some ⟨L345, fun _ => 0⟩, scode := 4, qform := some ⟨L345, fun _ => 0⟩, qcode := 4
    slope := 1, inter := 0, xyzUnits := "mm".data }

/-- A `dseg` volume in `float64` with one value in `(-1, 0)`: the range test
fails on the stored data but passes on its `int16` truncation. -/
def vDsegNeg : Volume :=
  { data := [Rat.divInt (-1) 2, Rat.divInt 16 5], dataDtype := .float64, affine := affId
    zooms := fun _ => 1, sform := some affId, scode := 4, qform := some affId, qcode := 4
    slope := 1, inter := 0, xyzUnits := "mm".data }

/-! ## Claim theorems -/

/-- C9: a `mask` volume is targeted at the 8-bit unsigned dtype with the
data left unrescaled — the dtype chain hits the `mask` branch first and no
value transform touches `mask` data — for every flag setting, current dtype
and data; any processing that completes carries exactly that target and the
untouched data. -/
theorem mask_always_uint8_no_rescale (fl : Flags) (obl : Bool) (v : Volume) :
    valueDtype fl .mask v = .uint8
    ∧ valueData fl .mask v = v.data
    ∧ (processVolume fl obl .mask v).map (fun o => (o.dtype, o.data))
        = (processVolume fl obl .mask v).map (fun _ => (DType.uint8, v.data)) := by
  have h1 : valueDtype fl .mask v = .uint8 := by
    rw [valueDtype, if_neg (by decide), policyDtype, if_pos rfl]
  have h2 : valueData fl .mask v = v.data := by
    rw [valueData, if_neg (by decide), if_neg]
    rintro ⟨-, -, h⟩
    rcases h with h | h | h <;> exact Modality.noConfusion h
  refine ⟨h1, h2, ?_⟩
  by_cases hc : fl.deoblique = true ∧ obl = true
  · rw [processVolume_crash fl obl .mask v hc]
    rfl
  · rw [processVolume_ok fl obl .mask v hc]
    simp [Except.map, h1, h2]

/-- C5: every volume the engine rewrites is written with
`sform_code = qform_code = 4`, `sform = qform = new_affine` exactly,
slope/inter `(1, 0)` and millimeter spatial units. -/
theorem written_header_invariants (fl : Flags) (obl : Bool) (m : Modality) (v : Volume)
    (o : Outcome)
    (hp : processVolume fl obl m v = .ok o)
    (hw : o.write = true) :
    o.out.scode = 4 ∧ o.out.qcode = 4
    ∧ o.out.sform = some o.affine ∧ o.out.qform = some o.affine
    ∧ o.out.affine = o.affine
    ∧ o.out.slope = 1 ∧ o.out.inter = 0 ∧ o.out.xyzUnits = "mm".data := by
  by_cases hc : fl.deoblique = true ∧ obl = true
  · rw [processVolume_crash fl obl m v hc] at hp
    exact absurd hp (by simp)
  · rw [processVolume_ok fl obl m v hc] at hp
    injection hp with h
    subst h
    exact ⟨rfl, rfl, rfl, rfl, rfl, rfl, rfl, rfl⟩

theorem written_header_invariants_witness :
    ∃ o, processVolume ⟨false, true, true⟩ false .mask vMask = .ok o
      ∧ o.write = true
      ∧ (o.out.scode = 4 ∧ o.out.qcode = 4
        ∧ o.out.sform = some o.affine ∧ o.out.qform = some o.affine
        ∧ o.out.affine = o.affine
        ∧ o.out.slope = 1 ∧ o.out.inter = 0 ∧ o.out.xyzUnits = "mm".data) :=
  ⟨_, rfl, by decide,
    written_header_invariants ⟨false, true, true⟩ false .mask vMask _ rfl (by decide)⟩

/-- C4 (code bug): on every execution that completes — the always-fatal
deoblique branch not entered — a `probseg` volume with non-constant data is
targeted at `float32`, written with minimum exactly 0 and maximum exactly 1,
and marked changed and rewritten, under every flag combination.  But the
program falsifies "always rewritten": at the failing input `vOblP` — an
oblique probseg volume under the default flags — it raises the line-77
`ValueError` before any write. -/
theorem probseg_rescale_and_line77_crash (fl : Flags) (obl : Bool) (v : Volume)
    (hne : listMin v.data < listMax v.data)
    (hnc : ¬ (fl.deoblique = true ∧ obl = true)) :
    (∃ o, processVolume fl obl .probseg v = .ok o
      ∧ o.dtype = .float32
      ∧ listMin o.out.data = 0
      ∧ listMax o.out.data = 1
      ∧ o.modified = true
      ∧ o.write = true)
    ∧ processVolume ⟨false, true, true⟩ true .probseg vOblP = .error deobliqueError
    ∧ oblExceeds vOblP.affine.lin := by
  have hl : v.data ≠ [] := by
    intro h
    rw [h] at hne
    simp [listMin, listMax] at hne
  have hmod : valueModified fl .probseg v = true := by
    rw [valueModified, if_pos rfl]
  have hdt : valueDtype fl .probseg v = .float32 := by
    rw [valueDtype, if_pos rfl]
  have hout : (writtenVolume fl .probseg v.affine v).data = probsegScaled v.data := by
    show castList (valueDtype fl .probseg v) (valueData fl .probseg v) = _
    rw [hdt, valueData, if_pos rfl, castList_float32]
  have hmap_ne : (v.data.map fun x => x - listMin v.data) ≠ [] := by
    simp [hl]
  have hsub : listMax (v.data.map fun x => x - listMin v.data)
      = listMax v.data - listMin v.data := listMax_map_sub _ v.data hl
  have hpos : 0 < listMax v.data - listMin v.data := by linarith
  have hk : (0 : ℚ) ≤ 1 / (listMax v.data - listMin v.data) := le_of_lt (by positivity)
  refine ⟨⟨_, processVolume_ok fl obl .probseg v hnc, ?_, ?_, ?_, ?_, ?_⟩,
    processVolume_crash ⟨false, true, true⟩ true .probseg vOblP ⟨rfl, rfl⟩,
    oblExceeds_L345⟩
  · exact hdt
  · show listMin ((writtenVolume fl .probseg v.affine v).data) = 0
    rw [hout]
    simp only [probsegScaled, hsub]
    rw [listMin_map_mul _ hk _ hmap_ne, listMin_map_sub _ v.data hl, sub_self, zero_mul]
  · show listMax ((writtenVolume fl .probseg v.affine v).data) = 1
    rw [hout]
    simp only [probsegScaled, hsub]
    rw [listMax_map_mul _ hk _ hmap_ne, hsub, mul_one_div_cancel hpos.ne']
  · exact hmod
  · show writeNeeded (valueModified fl .probseg v) v.affine v = true
    rw [writeNeeded, hmod, Bool.true_or, Bool.true_or, Bool.true_or]

theorem probseg_rescale_crash_witness :
    listMin vProb.data < listMax vProb.data
    ∧ ¬ ((Flags.mk false true true).deoblique = true ∧ false = true)
    ∧ ((∃ o, processVolume ⟨false, true, true⟩ false .probseg vProb = .ok o
        ∧ o.dtype = .float32
        ∧ listMin o.out.data = 0
        ∧ listMax o.out.data = 1
        ∧ o.modified = true
        ∧ o.write = true)
      ∧ processVolume ⟨false, true, true⟩ true .probseg vOblP = .error deobliqueError
      ∧ oblExceeds vOblP.affine.lin) :=
  ⟨by decide, by decide,
    probseg_rescale_and_line77_crash ⟨false, true, true⟩ false vProb (by decide) (by decide)⟩

/-- C10: on a constant-data `probseg` volume the shifted maximum — the
divisor of the probseg rescale — is exactly 0, so the scale factor is a
division by zero; under the totalized rational division (`1/0 = 0`) every
value of the rescaled array is 0 and any written maximum is 0, not 1: the
rescale is well-defined only for non-constant data. -/
theorem probseg_constant_data_divides_by_zero (fl : Flags) (obl : Bool) (v : Volume) (c : ℚ)
    (hne : v.data ≠ []) (hall : ∀ x ∈ v.data, x = c) :
    listMax (v.data.map fun x => x - listMin v.data) = 0
    ∧ (∀ y ∈ probsegScaled v.data, y = 0)
    ∧ ∀ o, processVolume fl obl .probseg v = .ok o →
        (∀ y ∈ o.out.data, y = 0) ∧ listMax o.out.data = 0 := by
  have hmin : listMin v.data = c := listMin_const c v.data hne hall
  have hmap_ne : (v.data.map fun x => x - listMin v.data) ≠ [] := by
    simp [hne]
  have hzero : ∀ y ∈ (v.data.map fun x => x - listMin v.data), y = 0 := by
    rintro y hy
    rcases List.mem_map.mp hy with ⟨x, hx, rfl⟩
    rw [hall x hx, hmin, sub_self]
  have hdiv : listMax (v.data.map fun x => x - listMin v.data) = 0 :=
    listMax_const 0 _ hmap_ne hzero
  have hscaled : ∀ y ∈ probsegScaled v.data, y = 0 := by
    simp only [probsegScaled]
    rintro y hy
    rcases List.mem_map.mp hy with ⟨x, hx, rfl⟩
    rw [hzero x hx, zero_mul]
  refine ⟨hdiv, hscaled, ?_⟩
  rintro o hp
  by_cases hc : fl.deoblique = true ∧ obl = true
  · rw [processVolume_crash fl obl .probseg v hc] at hp
    exact absurd hp (by simp)
  · rw [processVolume_ok fl obl .probseg v hc] at hp
    injection hp with h
    subst h
    have hout : (writtenVolume fl .probseg v.affine v).data = probsegScaled v.data := by
      show castList (valueDtype fl .probseg v) (valueData fl .probseg v) = _
      rw [valueDtype, if_pos rfl, valueData, if_pos rfl, castList_float32]
    constructor
    · show ∀ y ∈ (writtenVolume fl .probseg v.affine v).data, y = 0
      rw [hout]
      exact hscaled
    · show listMax ((writtenVolume fl .probseg v.affine v).data) = 0
      rw [hout]
      apply listMax_const 0 _ _ hscaled
      simp only [probsegScaled]
      simp [hne]

theorem probseg_constant_witness :
    vProbC.data ≠ []
    ∧ (∀ x ∈ vProbC.data, x = 5)
    ∧ (listMax (vProbC.data.map fun x => x - listMin vProbC.data) = 0
      ∧ (∀ y ∈ probsegScaled vProbC.data, y = 0)
      ∧ ∀ o, processVolume ⟨false, true, true⟩ false .probseg vProbC = .ok o →
          (∀ y ∈ o.out.data, y = 0) ∧ listMax o.out.data = 0) :=
  ⟨by decide, by decide,
    probseg_constant_data_divides_by_zero ⟨false, true, true⟩ false vProbC 5
      (by decide) (by decide)⟩

/-- C3 counterexample: with `force_dtype = false` (and `deoblique = false`),
a `dseg` volume whose values all lie in `[0, 256)` does not keep its current
`int16` dtype as the claim states — the engine still targets `uint8`, marks
the volume modified and rewrites it. -/
theorem dseg_coerced_despite_flag_off :
    (processVolume ⟨false, false, false⟩ false .dseg vDseg).map
        (fun o => (o.dtype, o.modified, o.write)) = .ok (.uint8, true, true)
    ∧ DType.uint8 ≠ vDseg.dataDtype := by
  refine ⟨by decide, by decide⟩

/-- C3 amended: the `dseg` 8-bit coercion is governed by the range test
alone and is not gated by `force_dtype`: whenever every value lies in
`[0, 256)` the target dtype is `uint8`, under any flag settings (the flag
gates only the `int16` default of the other modalities), and any completed
processing carries that target. -/
theorem dseg_range_coercion_unconditional (fl : Flags) (obl : Bool) (v : Volume)
    (hr : dsegRange v.data = true) :
    valueDtype fl .dseg v = .uint8
    ∧ ∀ o, processVolume fl obl .dseg v = .ok o → o.dtype = .uint8 := by
  have h1 : valueDtype fl .dseg v = .uint8 := by
    rw [valueDtype, if_neg (by decide), policyDtype, if_neg (by decide), if_pos ⟨rfl, hr⟩]
  refine ⟨h1, ?_⟩
  rintro o hp
  by_cases hc : fl.deoblique = true ∧ obl = true
  · rw [processVolume_crash fl obl .dseg v hc] at hp
    exact absurd hp (by simp)
  · rw [processVolume_ok fl obl .dseg v hc] at hp
    injection hp with h
    subst h
    exact h1

theorem dseg_range_coercion_witness :
    dsegRange vDseg.data = true
    ∧ (valueDtype ⟨true, true, false⟩ .dseg vDseg = .uint8
      ∧ ∀ o, processVolume ⟨true, true, false⟩ false .dseg vDseg = .ok o →
          o.dtype = .uint8) :=
  ⟨by decide, dseg_range_coercion_unconditional ⟨true, true, false⟩ false vDseg (by decide)⟩

lemma normData_vT1_eval : normData .int16 vT1.data = [0, 3337, 6673, 10010] := by
  have hperc : percentile vT1.data (999/10) = 2997/1000 := by
    norm_num [percentile, sortQ, insortQ, List.getD, vT1]
    norm_num [show Int.toNat 2 = 2 from rfl, List.getElem_cons_succ, List.getElem_cons_zero]
  have r0 : roundHE (10000 * 0 / (2997/1000)) = 0 := by rw [roundHE]; norm_num
  have r1 : roundHE (10000 * 1 / (2997/1000)) = 3337 := by rw [roundHE]; norm_num
  have r2 : roundHE (10000 * 2 / (2997/1000)) = 6673 := by rw [roundHE]; norm_num
  have r3 : roundHE (10000 * 3 / (2997/1000)) = 10010 := by rw [roundHE]; norm_num
  rw [normData, hperc, vT1]
  simp only [List.map_cons, List.map_nil, r0, r1, r2, r3, castList]
  norm_num [castVal, truncQ]

/-- C2 counterexample: `normalize = true` on a `T1w` volume whose current
dtype already equals the target (`int16`): the engine leaves the data
untouched and does not mark the volume changed — although the percentile
rescale the claim demands would have altered the data. -/
theorem normalize_skipped_when_dtype_matches :
    (processVolume ⟨true, true, true⟩ false .T1w vT1).map (fun o => (o.data, o.modified))
      = .ok (vT1.data, false)
    ∧ normData .int16 vT1.data ≠ vT1.data := by
  refine ⟨by decide, ?_⟩
  rw [normData_vT1_eval, vT1]
  decide

/-- C2 amended: for a `T1w`/`T2w`/`PD` volume with `normalize = true`, the
percentile rescale (`round(1e4·x/percentile(data, 99.9))` cast to the target
dtype) is applied exactly when the dtype stage already marked the volume
modified, i.e. when the target dtype differs from the current dtype; the
change mark comes from that dtype difference, not from the rescale. -/
theorem normalize_applies_iff_dtype_modified (fl : Flags) (obl : Bool) (m : Modality)
    (v : Volume)
    (hm : m = .T1w ∨ m = .T2w ∨ m = .PD)
    (hn : fl.normalize = true)
    (hd : policyDtype fl.force_dtype m v.data v.dataDtype ≠ v.dataDtype) :
    valueData fl m v = normData (policyDtype fl.force_dtype m v.data v.dataDtype) v.data
    ∧ valueModified fl m v = true
    ∧ ∀ o, processVolume fl obl m v = .ok o →
        o.data = normData (policyDtype fl.force_dtype m v.data v.dataDtype) v.data
        ∧ o.modified = true := by
  have hmp : m ≠ .probseg := by rcases hm with rfl | rfl | rfl <;> decide
  have h1 : valueData fl m v
      = normData (policyDtype fl.force_dtype m v.data v.dataDtype) v.data := by
    rw [valueData, if_neg hmp, if_pos ⟨hd, hn, hm⟩]
  have h2 : valueModified fl m v = true := by
    rw [valueModified, if_neg hmp]
    exact decide_eq_true hd
  refine ⟨h1, h2, ?_⟩
  rintro o hp
  by_cases hc : fl.deoblique = true ∧ obl = true
  · rw [processVolume_crash fl obl m v hc] at hp
    exact absurd hp (by simp)
  · rw [processVolume_ok fl obl m v hc] at hp
    injection hp with h
    subst h
    exact ⟨h1, h2⟩

theorem normalize_applies_witness :
    ((Modality.T1w = .T1w ∨ Modality.T1w = .T2w ∨ Modality.T1w = .PD)
    ∧ (Flags.mk true true true).normalize = true
    ∧ policyDtype true .T1w vT1f.data vT1f.dataDtype ≠ vT1f.dataDtype)
    ∧ (valueData ⟨true, true, true⟩ .T1w vT1f
        = normData (policyDtype true .T1w vT1f.data vT1f.dataDtype) vT1f.data
      ∧ valueModified ⟨true, true, true⟩ .T1w vT1f = true
      ∧ ∀ o, processVolume ⟨true, true, true⟩ false .T1w vT1f = .ok o →
          o.data = normData (policyDtype true .T1w vT1f.data vT1f.dataDtype) vT1f.data
          ∧ o.modified = true) :=
  ⟨⟨by decide, by decide, by decide⟩,
    normalize_applies_iff_dtype_modified ⟨true, true, true⟩ false .T1w vT1f
      (by decide) (by decide) (by decide)⟩

/-- C6 (code bug): the deoblique invariant cannot hold on this code — the
branch that should establish it never completes.  At the failing input
`vObl`, whose affine exceeds the threshold (metric `arccos(4/5) > 1e-2`),
processing under `deoblique = true` aborts with the line-77 `ValueError`
instead of writing a deobliqued volume; with the flag disabled, the affine
is indeed left unchanged from the input. -/
theorem deoblique_branch_raises (obl : Bool) :
    oblExceeds vObl.affine.lin
    ∧ processVolume ⟨false, true, true⟩ true .T1w vObl = .error deobliqueError
    ∧ (processVolume ⟨false, false, true⟩ obl .T1w vObl).map (fun o => o.affine)
        = .ok vObl.affine := by
  refine ⟨oblExceeds_L345,
    processVolume_crash ⟨false, true, true⟩ true .T1w vObl ⟨rfl, rfl⟩, ?_⟩
  rw [processVolume_ok ⟨false, false, true⟩ obl .T1w vObl
    (by rintro ⟨h, -⟩; exact Bool.false_ne_true h)]
  rfl

/-! ## Second-pass stability lemmas (towards the idempotence claim) -/

lemma valueData_not_anat (fl : Flags) (m : Modality) (v : Volume)
    (hm : m ≠ .probseg) (hanat : ¬(m = .T1w ∨ m = .T2w ∨ m = .PD)) :
    valueData fl m v = v.data := by
  rw [valueData, if_neg hm, if_neg]
  rintro ⟨-, -, h3⟩
  exact hanat h3

lemma policyDtype_not_mask_dseg (force : Bool) (m : Modality) (D : List ℚ) (cur : DType)
    (hmask : m ≠ .mask) (hdseg : m ≠ .dseg) :
    policyDtype force m D cur = if force = false then cur else .int16 := by
  rw [policyDtype, if_neg hmask, if_neg]
  rintro ⟨h, -⟩
  exact hdseg h

/-- Applying the dtype policy to the data and dtype of the volume written by
a first pass returns the written dtype unchanged.  For `dseg` the only
data-dependent case is covered by the hypothesis: a range test that failed
on the original data must still fail on the cast data. -/
lemma policyDtype_stable (fl : Flags) (m : Modality) (v : Volume)
    (hm : m ≠ .probseg)
    (hdseg : m = .dseg → dsegRange v.data = false →
      dsegRange (castList (valueDtype fl m v) (valueData fl m v)) = false) :
    policyDtype fl.force_dtype m
        (castList (valueDtype fl m v) (valueData fl m v)) (valueDtype fl m v)
      = valueDtype fl m v := by
  by_cases hmask : m = .mask
  · subst hmask
    have h1 : valueDtype fl .mask v = .uint8 := by
      rw [valueDtype, if_neg (by decide), policyDtype, if_pos rfl]
    rw [h1, policyDtype, if_pos rfl]
  by_cases hdsg : m = .dseg
  · subst hdsg
    have hvd : valueData fl .dseg v = v.data :=
      valueData_not_anat fl .dseg v (by decide) (by decide)
    have h1 : valueDtype fl .dseg v = policyDtype fl.force_dtype .dseg v.data v.dataDtype := by
      rw [valueDtype, if_neg (by decide)]
    by_cases hr : dsegRange v.data = true
    · have h2 : valueDtype fl .dseg v = .uint8 := by
        rw [h1, policyDtype, if_neg (by decide), if_pos ⟨rfl, hr⟩]
      rw [h2, hvd, policyDtype, if_neg (by decide),
        if_pos ⟨rfl, dsegRange_castList_uint8 v.data⟩]
    · have hr' : dsegRange v.data = false := by
        cases hb : dsegRange v.data
        · rfl
        · exact absurd hb hr
      have hcast := hdseg rfl hr'
      have hnr : ¬ (Modality.dseg = .dseg ∧ dsegRange v.data = true) := by
        rintro ⟨-, hc⟩
        rw [hr'] at hc
        exact Bool.false_ne_true hc
      have hnot2 : ¬ (Modality.dseg = .dseg
          ∧ dsegRange (castList (valueDtype fl .dseg v) (valueData fl .dseg v)) = true) := by
        rintro ⟨-, hc⟩
        rw [hcast] at hc
        exact Bool.false_ne_true hc
      have h2 : valueDtype fl .dseg v
          = if fl.force_dtype = false then v.dataDtype else .int16 := by
        rw [h1, policyDtype, if_neg (by decide), if_neg hnr]
      rw [policyDtype, if_neg (by decide), if_neg hnot2, h2]
      by_cases hf : fl.force_dtype = false <;> simp [hf]
  · have h1 : valueDtype fl m v = if fl.force_dtype = false then v.dataDtype else .int16 := by
      rw [valueDtype, if_neg hm, policyDtype_not_mask_dseg _ _ _ _ hmask hdsg]
    rw [policyDtype_not_mask_dseg _ _ _ _ hmask hdsg, h1]
    by_cases hf : fl.force_dtype = false <;> simp [hf]

/-- C1 amended: for every file the first pass actually wrote (processing
completed on it) whose modality is not `probseg` and — for `dseg` — whose
write-time cast does not turn the failed `[0,256)` range test into a passing
one, the second pass with the same flags detects no change and performs no
rewrite.  `obl1`/`obl2` are the analyzer verdicts of the two passes, tied to
the real obliquity metric.  `probseg` volumes (marked modified
unconditionally) and range-flipping `dseg` volumes are rewritten again on
every pass — see the counterexample. -/
theorem second_pass_reports_unchanged (fl : Flags) (obl1 obl2 : Bool) (m : Modality)
    (v : Volume) (o1 : Outcome)
    (hm : m ≠ .probseg)
    (hp1 : processVolume fl obl1 m v = .ok o1)
    (h1 : obl1 = true ↔ oblExceeds v.affine.lin)
    (h2 : obl2 = true ↔ oblExceeds o1.out.affine.lin)
    (hdseg : m = .dseg → dsegRange v.data = false → dsegRange o1.out.data = false) :
    ∃ o2, processVolume fl obl2 m o1.out = .ok o2 ∧ o2.write = false := by
  by_cases hc1 : fl.deoblique = true ∧ obl1 = true
  · rw [processVolume_crash fl obl1 m v hc1] at hp1
    exact absurd hp1 (by simp)
  · rw [processVolume_ok fl obl1 m v hc1] at hp1
    injection hp1 with h
    subst h
    have hnc2 : ¬ (fl.deoblique = true ∧ obl2 = true) := by
      rintro ⟨hdeo, ho2⟩
      have hex : oblExceeds v.affine.lin := h2.mp ho2
      exact hc1 ⟨hdeo, h1.mpr hex⟩
    refine ⟨_, processVolume_ok fl obl2 m _ hnc2, ?_⟩
    show writeNeeded (valueModified fl m (writtenVolume fl m v.affine v))
        (writtenVolume fl m v.affine v).affine (writtenVolume fl m v.affine v) = false
    have hvm : valueModified fl m (writtenVolume fl m v.affine v) = false := by
      rw [valueModified, if_neg hm]
      exact decide_eq_false (fun hne => hne (policyDtype_stable fl m v hm hdseg))
    rw [writeNeeded, hvm]
    have hsc : (writtenVolume fl m v.affine v).scode = 4 := rfl
    have hqc : (writtenVolume fl m v.affine v).qcode = 4 := rfl
    have hsf : (writtenVolume fl m v.affine v).sform
        = some ((writtenVolume fl m v.affine v).affine) := rfl
    have hqf : (writtenVolume fl m v.affine v).qform
        = some ((writtenVolume fl m v.affine v).affine) := rfl
    rw [hsc, hqc, hsf, hqf]
    simp

theorem second_pass_witness :
    Modality.mask ≠ .probseg
    ∧ ¬ oblExceeds vMask.affine.lin
    ∧ ∃ o1, processVolume ⟨false, true, true⟩ false .mask vMask = .ok o1
      ∧ ∃ o2, processVolume ⟨false, true, true⟩ false .mask o1.out = .ok o2
        ∧ o2.write = false := by
  have hno : ¬ oblExceeds vMask.affine.lin :=
    not_oblExceeds_diag (fun _ => 1) (fun i => by norm_num)
  refine ⟨by decide, hno, _, rfl, ?_⟩
  exact second_pass_reports_unchanged ⟨false, true, true⟩ false false .mask vMask _
    (by decide) rfl (iff_of_false (by decide) hno) (iff_of_false (by decide) hno)
    (fun h => absurd h (by decide))

/-- C1 counterexample: two volumes rewritten by a first pass are detected as
changed again by the second pass (default flags; the identity affines are
not oblique, so the analyzer verdict `false` used here is the real one).  A
`probseg` volume is marked modified unconditionally and rewritten on every
pass; and a `dseg` volume holding `-1/2` in `float64` fails the range test
on pass one (written as `int16`), but its truncated data `[0, 3]` passes the
test on pass two, so it is rewritten again, now with dtype `uint8`. -/
theorem second_pass_rewrites_probseg_and_dseg :
    ((processVolume ⟨false, true, true⟩ false .probseg vProb).map (fun o => o.write)
        = .ok true
      ∧ ((processVolume ⟨false, true, true⟩ false .probseg vProb).bind
          (fun o1 => processVolume ⟨false, true, true⟩ false .probseg o1.out)).map
            (fun o2 => (o2.modified, o2.write)) = .ok (true, true))
    ∧ ((processVolume ⟨false, true, true⟩ false .dseg vDsegNeg).map
          (fun o1 => (o1.dtype, o1.write)) = .ok (.int16, true)
      ∧ ((processVolume ⟨false, true, true⟩ false .dseg vDsegNeg).bind
          (fun o1 => processVolume ⟨false, true, true⟩ false .dseg o1.out)).map
            (fun o2 => (o2.dtype, o2.write)) = .ok (.uint8, true))
    ∧ ¬ oblExceeds vProb.affine.lin
    ∧ ¬ oblExceeds vDsegNeg.affine.lin := by
  refine ⟨⟨by decide, by decide⟩, ⟨by decide, by decide⟩, ?_, ?_⟩
  · exact not_oblExceeds_diag (fun _ => 1) (fun i => by norm_num)
  · exact not_oblExceeds_diag (fun _ => 1) (fun i => by norm_num)

/-! ## Error propagation and the report (tree level) -/

/-- C7 amended: an exception raised while loading one NIfTI file propagates:
the pass ends at once with that exception — the remaining files (an
arbitrary suffix `fs`) are never processed, nothing further is written or
copied, and the caller receives the exception instead of a report. -/
theorem decode_error_aborts_pass (fl : Flags) (f : FileRec) (fs : List FileRec)
    (e : String)
    (hn : isNiiName f.fname = true)
    (he : f.load = .error e) :
    copyTemplate fl (f :: fs) = ⟨[], [], .error e⟩ := by
  simp [copyTemplate, hn, he]

/-- A canonical non-volume file (wrong extension). -/
def fLic : FileRec :=
  { fname := "root/LICENSE", sameFile := false, load := .error "never loaded", obl := false }

/-- A NIfTI file whose decode fails. -/
def fBad : FileRec :=
  { fname := "tpl/bad_T1w.nii", sameFile := false, load := .error "decode failure"
    obl := false }

/-- A NIfTI file that loads fine and needs a rewrite (its `sform_code` is 0). -/
def fGood : FileRec :=
  { fname := "tpl/good_mask.nii", sameFile := false, load := .ok vMask, obl := false }

/-- Like `fGood` but under an input root `root/`, so that the path relative
to the input root would be `sub_mask.nii`. -/
def fGoodR : FileRec :=
  { fname := "root/sub_mask.nii", sameFile := false, load := .ok vMask, obl := false }

/-- C7 counterexample: in a two-file tree whose first file fails to decode,
the pass aborts with the exception: the second file — which a pass over it
alone rewrites and reports — is never processed and no aggregate report is
produced. -/
theorem decode_error_aborts_pass_concrete :
    copyTemplate ⟨false, true, true⟩ [fBad, fGood] = ⟨[], [], .error "decode failure"⟩
    ∧ (copyTemplate ⟨false, true, true⟩ [fGood]).writes.length = 1
    ∧ (copyTemplate ⟨false, true, true⟩ [fGood]).outcome = .ok ["tpl/good_mask.nii"] :=
  ⟨rfl, by decide, rfl⟩

theorem decode_error_aborts_witness :
    isNiiName fBad.fname = true
    ∧ fBad.load = .error "decode failure"
    ∧ copyTemplate ⟨false, true, true⟩ [fBad, fGood] = ⟨[], [], .error "decode failure"⟩ :=
  ⟨by decide, rfl,
    decode_error_aborts_pass ⟨false, true, true⟩ fBad [fGood] "decode failure"
      (by decide) rfl⟩

/-- Whether the rewrite branch of the loop fires for a file (the condition
under which `retval` records it): the name is NIfTI, the decode succeeds,
the engine completes without the line-77 exception and decides to write. -/
def fileReported (fl : Flags) (f : FileRec) : Bool :=
  isNiiName f.fname &&
    (match f.load with
     | .error _ => false
     | .ok v =>
       match processVolume fl f.obl (modalityOf f.fname) v with
       | .error _ => false
       | .ok o => o.write)

/-- C8 amended: when the pass completes — every NIfTI file decodes and none
enters the always-fatal deoblique branch (that exception, like any other,
aborts the pass without a report) — the returned report lists exactly the
rewritten files: verbatim-copied files (non-NIfTI or unchanged) are not
reported, the order is traversal order, and each entry is the source path
handed to the engine, not a path relative to the input root. -/
theorem report_exactly_rewritten_files (fl : Flags) (fs : List FileRec)
    (hok : ∀ f ∈ fs, isNiiName f.fname = true →
      ∃ v o, f.load = .ok v ∧ processVolume fl f.obl (modalityOf f.fname) v = .ok o) :
    (copyTemplate fl fs).outcome
      = .ok ((fs.filter (fileReported fl)).map (·.fname)) := by
  induction fs with
  | nil => rfl
  | cons f fs ih =>
    have hok' : ∀ g ∈ fs, isNiiName g.fname = true →
        ∃ v o, g.load = .ok v ∧ processVolume fl g.obl (modalityOf g.fname) v = .ok o :=
      fun g hg => hok g (List.mem_cons_of_mem f hg)
    cases hb : isNiiName f.fname with
    | false =>
      have hrep : fileReported fl f = false := by
        rw [fileReported, hb, Bool.false_and]
      simp only [copyTemplate, hb, List.filter_cons, hrep]
      simp only [if_pos rfl, Bool.false_eq_true, if_false]
      exact ih hok'
    | true =>
      rcases hok f (List.mem_cons_self f fs) hb with ⟨v, o, hv, ho⟩
      cases hw : o.write with
      | true =>
        have hrep : fileReported fl f = true := by
          rw [fileReported, hb, Bool.true_and]
          simp only [hv, ho]
          exact hw
        simp only [copyTemplate, hb, hv, ho, hw, List.filter_cons, hrep]
        simp only [Bool.true_eq_false, if_false, if_pos rfl, List.map_cons]
        rw [ih hok']
        rfl
      | false =>
        have hrep : fileReported fl f = false := by
          rw [fileReported, hb, Bool.true_and]
          simp only [hv, ho]
          exact hw
        simp only [copyTemplate, hb, hv, ho, hw, List.filter_cons, hrep]
        simp only [Bool.true_eq_false, Bool.false_eq_true, if_false]
        exact ih hok'

theorem report_exactly_rewritten_witness :
    (∀ f ∈ [fGoodR, fLic], isNiiName f.fname = true →
      ∃ v o, f.load = .ok v
        ∧ processVolume ⟨false, true, true⟩ f.obl (modalityOf f.fname) v = .ok o)
    ∧ (copyTemplate ⟨false, true, true⟩ [fGoodR, fLic]).outcome
        = .ok ((([fGoodR, fLic]).filter (fileReported ⟨false, true, true⟩)).map (·.fname)) := by
  have hok : ∀ f ∈ [fGoodR, fLic], isNiiName f.fname = true →
      ∃ v o, f.load = .ok v
        ∧ processVolume ⟨false, true, true⟩ f.obl (modalityOf f.fname) v = .ok o := by
    intro f hf hn
    rcases List.mem_cons.mp hf with rfl | hf
    · exact ⟨vMask, _, rfl,
        processVolume_ok ⟨false, true, true⟩ fGoodR.obl (modalityOf fGoodR.fname) vMask
          (by decide)⟩
    · rcases List.mem_singleton.mp hf with rfl
      exact absurd hn (by decide)
  exact ⟨hok, report_exactly_rewritten_files ⟨false, true, true⟩ [fGoodR, fLic] hok⟩

/-- C8 counterexample: a tree with a non-NIfTI file (copied to a differing
destination) and a rewritten NIfTI file under input root `root/`: the copy
is performed but absent from the report, and the reported entry is the
source path `"root/sub_mask.nii"`, not the path `"sub_mask.nii"` relative
to the input root. -/
theorem report_omits_copies_and_uses_source_paths :
    (copyTemplate ⟨false, true, true⟩ [fLic, fGoodR]).copies = ["root/LICENSE"]
    ∧ (copyTemplate ⟨false, true, true⟩ [fLic, fGoodR]).outcome = .ok ["root/sub_mask.nii"]
    ∧ "root/sub_mask.nii" ≠ "sub_mask.nii" :=
  ⟨by decide, rfl, by decide⟩

end TF
